import Mathlib

/-!
Verification of the task-management application's notification/reminder
subsystem and task/category CRUD logic, shallowly embedded from the
JavaScript source (`server/services/notificationService.js`, the task and
category route handlers and the Mongoose schema hooks).

Conventions of the embedding:
* Timestamps are `Int`, milliseconds since the Unix epoch (the value of a
  JavaScript `Date`).
* A Mongo collection is a `List` of documents; `_id` is a `Nat` field `id`.
* `reminderDate`, `dueDate`, `completedAt` are `Option Int` (nullable).
* Mongoose's `isModified(f)` is embedded as "the assigned value differs
  from the stored value" (Mongoose does not mark a path modified when the
  assigned value equals the current one).
* Exceptions thrown by database calls inside a batch loop are modelled by
  an explicit `fault` predicate on the user being processed; `try/catch`
  blocks become the points where such a fault stops, or is absorbed by,
  the modelled control flow.
-/

namespace Todo

/-- Subtask subdocument of the task schema (`subtaskSchema`). -/
structure Subtask where
  title : String
  completed : Bool
  order : Int
deriving Repr, DecidableEq

/-- Task document (`taskSchema` in the Task model file). `createdAt` comes
from the schema's `timestamps: true` option. -/
structure Task where
  id : Nat
  title : String
  description : Option String
  completed : Bool
  priority : String
  category : String
  dueDate : Option Int
  dueTime : Option String
  reminderDate : Option Int
  subtasks : List Subtask
  tags : List String
  userId : Nat
  order : Int
  completedAt : Option Int
  estimatedDuration : Option Int
  actualDuration : Option Int
  notes : Option String
  createdAt : Int
deriving Repr, DecidableEq

/-- User preferences subdocument (User model). -/
structure Preferences where
  theme : String
  emailNotifications : Bool
  pushNotifications : Bool
  defaultCategory : String
deriving Repr, DecidableEq

/-- User document (User model). -/
structure User where
  id : Nat
  name : String
  email : String
  preferences : Preferences
deriving Repr, DecidableEq

/-- Category document (`categorySchema` in the Category model file). -/
structure Category where
  id : Nat
  name : String
  color : String
  icon : String
  description : Option String
  userId : Nat
  isDefault : Bool
  order : Int
deriving Repr, DecidableEq

/-- A message handed to the mail transporter (`transporter.sendMail`
argument: recipient and subject; the html body is elided). -/
structure Email where
  recipient : String
  subject : String
deriving Repr, DecidableEq

/-- `checkAndSendReminders` selection predicate: the Mongo query
`{ completed: false, reminderDate: { $gte: now, $lte: now + 15*60*1000 } }`.
A missing (`null`) `reminderDate` matches no range query. -/
def inReminderWindow (now : Int) (t : Task) : Bool :=
  !t.completed &&
    match t.reminderDate with
    | some r => decide (now ≤ r) && decide (r ≤ now + 15 * 60 * 1000)
    | none => false

/-- The result of the `Task.find` in `checkAndSendReminders`. -/
def tasksToRemind (now : Int) (store : List Task) : List Task :=
  store.filter (inReminderWindow now)

/-- `.populate('userId')`: resolve a task's `userId` against the user
collection; yields `none` when no such user exists. -/
def findUser (users : List User) (uid : Nat) : Option User :=
  users.find? (fun u => u.id == uid)

/-- `task.save()` after mutating a loaded document: the stored document
with the same `_id` is replaced by the new state. -/
def saveTask (t : Task) (store : List Task) : List Task :=
  store.map (fun s => if s.id = t.id then t else s)

/-- `transporter.sendMail`: succeeds or throws, per the delivery channel. -/
def sendMail (deliveryOk : Bool) (e : Email) : Except String Email :=
  if deliveryOk then Except.ok e else Except.error "send failed"

/-- `sendTaskReminder(user, task)`: returns silently when the transporter
is unconfigured or the user's `preferences.emailNotifications` is off;
otherwise attempts the send, and a delivery failure is caught inside this
function (the result is a log line, never a propagated exception). -/
def sendTaskReminder (transporterOk : Bool) (deliveryOk : Bool)
    (u : User) (t : Task) : List String :=
  if !transporterOk || !u.preferences.emailNotifications then []
  else
    match sendMail deliveryOk { recipient := u.email, subject := "Reminder: " ++ t.title } with
    | Except.ok e => ["Reminder email sent to " ++ e.recipient ++ " for task: " ++ t.title]
    | Except.error msg => ["Failed to send reminder email: " ++ msg]

/-- State produced by a reminder scan: the task store after the per-task
saves, the `(userId, taskId)` pairs for which `sendTaskReminder` was
invoked, and the accumulated dispatcher log lines. -/
structure ScanResult where
  store : List Task
  calls : List (Nat × Nat)
  logs : List String
deriving Repr, DecidableEq

/-- The `for (const task of tasksToRemind)` loop of `checkAndSendReminders`:
when the populated user exists and has `emailNotifications` on, dispatch
the reminder, then null out `reminderDate` and save the task. -/
def processReminders (users : List User) (transporterOk : Bool)
    (deliveryOk : Nat → Bool) : List Task → List Task → ScanResult
  | [], store => ⟨store, [], []⟩
  | t :: rest, store =>
    match findUser users t.userId with
    | some u =>
      if u.preferences.emailNotifications then
        let logs := sendTaskReminder transporterOk (deliveryOk t.id) u t
        let store' := saveTask { t with reminderDate := none } store
        let r := processReminders users transporterOk deliveryOk rest store'
        ⟨r.store, (u.id, t.id) :: r.calls, logs ++ r.logs⟩
      else processReminders users transporterOk deliveryOk rest store
    | none => processReminders users transporterOk deliveryOk rest store

/-- `checkAndSendReminders`: query the window, then run the dispatch loop. -/
def checkAndSendReminders (users : List User) (transporterOk : Bool)
    (deliveryOk : Nat → Bool) (now : Int) (store : List Task) : ScanResult :=
  processReminders users transporterOk deliveryOk (tasksToRemind now store) store

/-- `User.find({ 'preferences.emailNotifications': true })`, the user query
shared by the daily and weekly batch jobs. -/
def usersWithNotifications (users : List User) : List User :=
  users.filter (fun u => u.preferences.emailNotifications)

/-- The per-user `Task.find` of `sendDailySummary`:
`{ userId, completed: false, dueDate: { $lte: tomorrow } }` with `.limit(10)`. -/
def dueSoonTasks (store : List Task) (uid : Nat) (tomorrow : Int) : List Task :=
  (store.filter (fun t => t.userId == uid && !t.completed &&
    match t.dueDate with
    | some d => decide (d ≤ tomorrow)
    | none => false)).take 10

/-- Outcome of one run of the daily due-soon batch job: per-user
notifications dispatched as `(userId, task count)`, the ids of the users
whose loop iteration ran to completion, and whether the job-level catch
logged an error. -/
structure DailyBatchResult where
  notifications : List (Nat × Nat)
  processed : List Nat
  errorLogged : Bool
deriving Repr, DecidableEq

/-- `sendDailySummary`'s `for (const user of users)` loop under the single
job-level `try/catch`: `fault u.id = true` models an exception thrown
inside that user's iteration (e.g. the `Task.find` database call); the
job-level catch then logs and the run ends, so no later user is visited.
A non-faulting user is queried for due-soon tasks and, when there are any,
`sendTaskDueSoonNotification` is dispatched. -/
def dailyLoop (fault : Nat → Bool) (store : List Task) (tomorrow : Int) :
    List User → DailyBatchResult
  | [] => ⟨[], [], false⟩
  | u :: rest =>
    if fault u.id then ⟨[], [], true⟩
    else
      let ds := dueSoonTasks store u.id tomorrow
      let r := dailyLoop fault store tomorrow rest
      ⟨(if ds.length > 0 then [(u.id, ds.length)] else []) ++ r.notifications,
       u.id :: r.processed, r.errorLogged⟩

/-- `sendDailySummary`: select eligible users, then run the loop. -/
def sendDailySummary (fault : Nat → Bool) (users : List User)
    (store : List Task) (tomorrow : Int) : DailyBatchResult :=
  dailyLoop fault store tomorrow (usersWithNotifications users)

/-- `$dateToString { format: '%Y-%m-%d' }` on a timestamp: two timestamps
yield the same date string exactly when they fall on the same UTC calendar
day, i.e. the same floor-quotient by 86 400 000 ms. -/
def dayKey (t : Int) : Int :=
  Int.fdiv t 86400000

/-- The `$match` stage shared by `generateWeeklyStats`'s aggregations:
`{ userId, completed: true, completedAt: { $gte: startDate } }`. -/
def completedSince (store : List Task) (uid : Nat) (startDate : Int) : List Task :=
  store.filter (fun t => t.userId == uid && t.completed &&
    match t.completedAt with
    | some c => decide (startDate ≤ c)
    | none => false)

/-- The summary record returned by `generateWeeklyStats`. -/
structure WeeklyStats where
  completedTasks : Nat
  createdTasks : Nat
  completionRate : Nat
  streak : Nat
  topCategory : Option (String × Nat)
deriving Repr, DecidableEq

/-- `generateWeeklyStats(userId, startDate)`. `completionRate` embeds
`Math.round((allCompleted / totalTasks) * 100)`; the `recentDays`
aggregation groups the matched tasks by the `%Y-%m-%d` string of
`completedAt`, so `streak` is the number of distinct `dayKey` values; the
`topCategory` aggregation groups by category, sorts by count descending
and takes the first group. -/
def generateWeeklyStats (store : List Task) (uid : Nat) (startDate : Int) :
    WeeklyStats :=
  let matched := completedSince store uid startDate
  let completedTasks := matched.length
  let createdTasks :=
    (store.filter (fun t => t.userId == uid && decide (startDate ≤ t.createdAt))).length
  let totalTasks := (store.filter (fun t => t.userId == uid)).length
  let allCompleted := (store.filter (fun t => t.userId == uid && t.completed)).length
  let completionRate :=
    if totalTasks > 0 then (allCompleted * 200 / totalTasks + 1) / 2 else 0
  let recentDays := ((matched.filterMap Task.completedAt).map dayKey).dedup
  let groups := (matched.map Task.category).dedup
  let counted := groups.map (fun c => (c, (matched.filter (fun t => t.category == c)).length))
  let topCategory := counted.foldl
    (fun acc p => match acc with
      | none => some p
      | some q => if p.2 > q.2 then some p else some q) none
  ⟨completedTasks, createdTasks, completionRate, recentDays.length, topCategory⟩

/-- Outcome of one run of the weekly summary batch job: the
`(userId, stats)` pairs handed to `sendWeeklySummary`, and whether the
job-level catch logged an error. -/
structure WeeklyBatchResult where
  summaries : List (Nat × WeeklyStats)
  errorLogged : Bool
deriving Repr, DecidableEq

/-- `sendWeeklySummaries`'s `for (const user of users)` loop under the
single job-level `try/catch`: `fault u.id = true` models an exception
inside that user's iteration (e.g. a database call in
`generateWeeklyStats`); the catch logs and the run ends. A non-faulting
user gets `generateWeeklyStats` computed and `sendWeeklySummary`
dispatched. -/
def weeklyLoop (fault : Nat → Bool) (store : List Task) (oneWeekAgo : Int) :
    List User → WeeklyBatchResult
  | [] => ⟨[], false⟩
  | u :: rest =>
    if fault u.id then ⟨[], true⟩
    else
      let stats := generateWeeklyStats store u.id oneWeekAgo
      let r := weeklyLoop fault store oneWeekAgo rest
      ⟨(u.id, stats) :: r.summaries, r.errorLogged⟩

/-- `sendWeeklySummaries`: select eligible users, then run the loop. -/
def sendWeeklySummaries (fault : Nat → Bool) (users : List User)
    (store : List Task) (oneWeekAgo : Int) : WeeklyBatchResult :=
  weeklyLoop fault store oneWeekAgo (usersWithNotifications users)

/-- Validated body of `POST /api/tasks` (fields accepted by the route's
validator chain; `userId` is taken from the authenticated request). -/
structure CreateTaskBody where
  title : String
  description : Option String := none
  category : String
  priority : Option String := none
  dueDate : Option Int := none
  dueTime : Option String := none
  tags : List String := []
  estimatedDuration : Option Int := none
  subtasks : List Subtask := []
deriving Repr, DecidableEq

/-- The `POST /api/tasks` handler body: build `taskData` from the request
and the authenticated user, and when `dueDate` is provided set
`reminderDate = new Date(dueDate.getTime() - 60 * 60 * 1000)` (one hour
before the due date); schema defaults fill the remaining fields. -/
def createTask (uid : Nat) (id : Nat) (now : Int) (b : CreateTaskBody) : Task :=
  let reminderDate :=
    match b.dueDate with
    | some d => some (d - 60 * 60 * 1000)
    | none => none
  { id := id, title := b.title, description := b.description,
    completed := false, priority := b.priority.getD "medium",
    category := b.category, dueDate := b.dueDate, dueTime := b.dueTime,
    reminderDate := reminderDate, subtasks := b.subtasks, tags := b.tags,
    userId := uid, order := 0, completedAt := none,
    estimatedDuration := b.estimatedDuration, actualDuration := none,
    notes := none, createdAt := now }

/-- Body of `PUT /api/tasks/:id`. The route's validator chain checks the
eleven documented fields, but `Object.keys(req.body).forEach` copies
every present key onto the loaded document, so the unvalidated mutable
schema paths — `completedAt`, `reminderDate`, `userId`, `order`,
`subtasks` — are assignable through the same handler. `none` means the
key is absent from the request; for the nullable date paths the carried
value is itself an `Option`, so an explicit null can be assigned. -/
structure UpdateTaskBody where
  title : Option String := none
  description : Option String := none
  category : Option String := none
  priority : Option String := none
  completed : Option Bool := none
  dueDate : Option Int := none
  dueTime : Option String := none
  tags : Option (List String) := none
  estimatedDuration : Option Int := none
  actualDuration : Option Int := none
  notes : Option String := none
  completedAt : Option (Option Int) := none
  reminderDate : Option (Option Int) := none
  userId : Option Nat := none
  order : Option Int := none
  subtasks : Option (List Subtask) := none
deriving Repr, DecidableEq

/-- The `Object.keys(req.body).forEach` field copy of the update handler:
every key present in the body overwrites the loaded document's field,
the unvalidated schema paths included — in particular a body carrying
`completedAt` writes it directly, without any transition of
`completed`. -/
def applyUpdate (b : UpdateTaskBody) (t : Task) : Task :=
  { t with
    title := b.title.getD t.title,
    description := match b.description with
      | some d => some d
      | none => t.description,
    category := b.category.getD t.category,
    priority := b.priority.getD t.priority,
    completed := b.completed.getD t.completed,
    dueDate := match b.dueDate with
      | some d => some d
      | none => t.dueDate,
    dueTime := match b.dueTime with
      | some s => some s
      | none => t.dueTime,
    tags := b.tags.getD t.tags,
    estimatedDuration := match b.estimatedDuration with
      | some n => some n
      | none => t.estimatedDuration,
    actualDuration := match b.actualDuration with
      | some n => some n
      | none => t.actualDuration,
    notes := match b.notes with
      | some s => some s
      | none => t.notes,
    completedAt := match b.completedAt with
      | some v => v
      | none => t.completedAt,
    reminderDate := match b.reminderDate with
      | some v => v
      | none => t.reminderDate,
    userId := b.userId.getD t.userId,
    order := b.order.getD t.order,
    subtasks := b.subtasks.getD t.subtasks }

/-- `taskSchema.pre('save')`: when the `completed` path was modified, set
`completedAt` to the current time if `completed` is now true and to null
if it is now false; otherwise leave `completedAt` alone. -/
def preSaveCompletedAt (modifiedCompleted : Bool) (now : Int) (t : Task) : Task :=
  if modifiedCompleted then
    if t.completed then { t with completedAt := some now }
    else { t with completedAt := none }
  else t

/-- The `PUT /api/tasks/:id` handler body on a loaded task `prev`: copy the
body fields onto the document, recompute `reminderDate = dueDate − 1 hour`
when the body carries a `dueDate`, then `save()`, which runs the
`pre('save')` hook; the hook's `isModified('completed')` holds exactly
when the assigned `completed` value differs from the stored one. -/
def updateTask (prev : Task) (b : UpdateTaskBody) (now : Int) : Task :=
  let t := applyUpdate b prev
  let t :=
    match b.dueDate with
    | some d => { t with reminderDate := some (d - 60 * 60 * 1000) }
    | none => t
  preSaveCompletedAt (decide (t.completed ≠ prev.completed)) now t

/-- `Category.updateMany({ userId, _id: { $ne: id } }, { $set: { isDefault:
false } })` from the category `pre('save')` hook. -/
def clearOtherDefaults (uid : Nat) (id : Nat) (cats : List Category) :
    List Category :=
  cats.map (fun c =>
    if c.userId = uid ∧ c.id ≠ id then { c with isDefault := false } else c)

/-- Persisting a category document: replace the stored document with the
same `_id`, or insert it when absent. -/
def upsertCategory (c : Category) (cats : List Category) : List Category :=
  if cats.any (fun x => x.id == c.id) then
    cats.map (fun x => if x.id = c.id then c else x)
  else cats ++ [c]

/-- `category.save()` including `categorySchema.pre('save')`: when
`isDefault` is true and the `isDefault` path was modified, first clear the
flag on every other category of the same user, then persist the
document. -/
def saveCategory (modifiedIsDefault : Bool) (c : Category)
    (cats : List Category) : List Category :=
  let cats' :=
    if c.isDefault ∧ modifiedIsDefault then clearOtherDefaults c.userId c.id cats
    else cats
  upsertCategory c cats'

/-- `Category.findOne({ _id: id, userId })`. -/
def findCategory (cats : List Category) (id : Nat) (uid : Nat) : Option Category :=
  cats.find? (fun c => c.id == id && c.userId == uid)

/-- `Task.countDocuments({ userId, category: name })`: number of the
user's tasks referencing the category by name. -/
def countTasksInCategory (store : List Task) (uid : Nat) (name : String) : Nat :=
  (store.filter (fun t => t.userId == uid && t.category == name)).length

/-- Response of the `DELETE /api/categories/:id` handler. -/
inductive DeleteCategoryResult where
  | notFound
  | conflict (taskCount : Nat)
  | deleted
deriving Repr, DecidableEq

/-- The `DELETE /api/categories/:id` handler: 404 when the category does
not exist for this user; a 400 conflict response naming the task count,
with no store change, when ≥1 of the user's tasks references the category
by name; otherwise `findByIdAndDelete` removes the document. -/
def deleteCategory (uid : Nat) (id : Nat) (cats : List Category)
    (store : List Task) : DeleteCategoryResult × List Category :=
  match findCategory cats id uid with
  | none => (DeleteCategoryResult.notFound, cats)
  | some cat =>
    let n := countTasksInCategory store uid cat.name
    if n > 0 then (DeleteCategoryResult.conflict n, cats)
    else (DeleteCategoryResult.deleted, cats.filter (fun c => c.id ≠ id))

/-! ## Helper lemmas -/

theorem inReminderWindow_iff (now : Int) (t : Task) :
    inReminderWindow now t = true ↔
      t.completed = false ∧
        ∃ r, t.reminderDate = some r ∧ now ≤ r ∧ r ≤ now + 15 * 60 * 1000 := by
  unfold inReminderWindow
  cases h : t.reminderDate <;> simp [h]

theorem findUser_id {users : List User} {uid : Nat} {u : User}
    (h : findUser users uid = some u) : u.id = uid := by
  have := List.find?_some h
  simpa using this

theorem findUser_mem {users : List User} {uid : Nat} {u : User}
    (h : findUser users uid = some u) : u ∈ users :=
  List.mem_of_find?_eq_some h

theorem preSaveCompletedAt_dueDate (m : Bool) (now : Int) (t : Task) :
    (preSaveCompletedAt m now t).dueDate = t.dueDate := by
  unfold preSaveCompletedAt
  split
  · split <;> rfl
  · rfl

theorem preSaveCompletedAt_reminderDate (m : Bool) (now : Int) (t : Task) :
    (preSaveCompletedAt m now t).reminderDate = t.reminderDate := by
  unfold preSaveCompletedAt
  split
  · split <;> rfl
  · rfl

/-- Behaviour of the task `pre('save')` hook on a document `t` about to be
saved over a stored state `prev`, when the save did not touch
`completedAt` directly: the hook fires exactly when the `completed` value
changed. -/
theorem preSave_cases (prev t : Task) (now : Int)
    (hca : t.completedAt = prev.completedAt) :
    ((preSaveCompletedAt (decide (t.completed ≠ prev.completed)) now t).completed
        = t.completed) ∧
    (prev.completedAt.isSome = prev.completed →
      (preSaveCompletedAt (decide (t.completed ≠ prev.completed)) now t).completedAt.isSome
        = (preSaveCompletedAt (decide (t.completed ≠ prev.completed)) now t).completed) ∧
    (prev.completed = false → t.completed = true →
      (preSaveCompletedAt (decide (t.completed ≠ prev.completed)) now t).completedAt
        = some now) ∧
    (prev.completed = true → t.completed = false →
      (preSaveCompletedAt (decide (t.completed ≠ prev.completed)) now t).completedAt
        = none) ∧
    (t.completed = prev.completed →
      (preSaveCompletedAt (decide (t.completed ≠ prev.completed)) now t).completedAt
        = prev.completedAt) := by
  cases hp : prev.completed <;> cases ht : t.completed <;>
    simp [preSaveCompletedAt, hp, ht, hca]

/-! ## C1 -/

/-- C1: the Reminder Scan selects exactly the incomplete tasks whose
`reminderDate` lies in the closed interval `[now, now + 15 minutes]`: a
task is selected by a scan at time `now` iff it is in the store,
incomplete, and `now ≤ reminderDate ≤ now + 15 minutes`. -/
theorem reminderScan_selects_iff (now : Int) (store : List Task) (t : Task) :
    t ∈ tasksToRemind now store ↔
      t ∈ store ∧ t.completed = false ∧
        ∃ r, t.reminderDate = some r ∧ now ≤ r ∧ r ≤ now + 15 * 60 * 1000 := by
  unfold tasksToRemind
  rw [List.mem_filter, inReminderWindow_iff]

/-! ## C5 -/

/-- C5: a created task with a `dueDate`, and an updated task whose update
body carries a `dueDate`, both end up with
`reminderDate = dueDate − 1 hour`. -/
theorem reminder_one_hour_before_due (uid id : Nat) (now now' : Int)
    (cb : CreateTaskBody) (prev : Task) (ub : UpdateTaskBody) (d d' : Int)
    (hc : cb.dueDate = some d) (hu : ub.dueDate = some d') :
    (createTask uid id now cb).dueDate = some d ∧
    (createTask uid id now cb).reminderDate = some (d - 60 * 60 * 1000) ∧
    (updateTask prev ub now').dueDate = some d' ∧
    (updateTask prev ub now').reminderDate = some (d' - 60 * 60 * 1000) := by
  refine ⟨by simp [createTask, hc], by simp [createTask, hc], ?_, ?_⟩ <;>
    simp only [updateTask, hu] <;>
    simp [preSaveCompletedAt_dueDate, preSaveCompletedAt_reminderDate, applyUpdate, hu]

/-- The spec's example creation body: `dueDate = 2024-01-10T10:00:00Z`,
i.e. `1704880800000` ms since the epoch. -/
def exCreateBody : CreateTaskBody :=
  { title := "report", category := "Work", dueDate := some 1704880800000 }

/-- A creation body with no due date, used as the pre-state of updates. -/
def exPlainBody : CreateTaskBody :=
  { title := "report", category := "Work" }

/-- An update body that sets `dueDate` to the spec's example instant. -/
def exDueUpdate : UpdateTaskBody :=
  { dueDate := some 1704880800000 }

/-- C5 witness: the spec's example task, created and updated with
`dueDate = 2024-01-10T10:00:00Z` (`1704880800000` ms), gets
`reminderDate = 2024-01-10T09:00:00Z` (`1704877200000` ms). -/
theorem reminder_one_hour_before_due_witness :
    (createTask 1 7 0 exCreateBody).reminderDate = some 1704877200000 ∧
    (updateTask (createTask 1 7 0 exPlainBody) exDueUpdate 0).reminderDate
      = some 1704877200000 := by
  have h := reminder_one_hour_before_due 1 7 0 0 exCreateBody
    (createTask 1 7 0 exPlainBody) exDueUpdate 1704880800000 1704880800000 rfl rfl
  exact ⟨h.2.1, h.2.2.2⟩

/-! ## C6 -/

/-- The task used as the pre-state of the C6 saves: incomplete, with
`completedAt` null, so the invariant holds before the save. -/
def cPrevTask : Task := createTask 1 3 0 exPlainBody

/-- A request body carrying only the unvalidated `completedAt` key. -/
def cBadBody : UpdateTaskBody := { completedAt := some (some 99) }

/-- C6 counterexample: a PUT body carrying only `completedAt` is copied
onto the document by the handler's key loop; `completed` is untouched, so
the `pre('save')` hook does not fire, and the save leaves `completed`
false with `completedAt` non-null — the iff-invariant is broken and a
save that did not change `completed` changed `completedAt`. -/
theorem completedAt_direct_write_cex :
    cPrevTask.completed = false ∧
    cPrevTask.completedAt = none ∧
    (updateTask cPrevTask cBadBody 5).completed = false ∧
    (updateTask cPrevTask cBadBody 5).completedAt = some 99 := by
  refine ⟨rfl, rfl, rfl, rfl⟩

/-- C6 (amended): for every update-save whose request body does not carry
the unvalidated `completedAt` key directly, `completedAt` is non-null iff
`completed` is true (given the invariant held before); `completedAt` is
set to the current time exactly on a false→true transition of
`completed`, cleared to null exactly on a true→false transition, and left
unchanged by saves that do not change `completed`. (A body writing
`completedAt` directly bypasses the hook, see the counterexample.) -/
theorem completedAt_iff_completed (prev : Task) (b : UpdateTaskBody) (now : Int)
    (hdirect : b.completedAt = none)
    (hinv : prev.completedAt.isSome = prev.completed) :
    ((updateTask prev b now).completedAt.isSome = (updateTask prev b now).completed) ∧
    (prev.completed = false → (updateTask prev b now).completed = true →
      (updateTask prev b now).completedAt = some now) ∧
    (prev.completed = true → (updateTask prev b now).completed = false →
      (updateTask prev b now).completedAt = none) ∧
    ((updateTask prev b now).completed = prev.completed →
      (updateTask prev b now).completedAt = prev.completedAt) := by
  cases hd : b.dueDate with
  | none =>
    have hca : (applyUpdate b prev).completedAt = prev.completedAt := by
      simp [applyUpdate, hdirect]
    obtain ⟨h1, h2, h3, h4, h5⟩ := preSave_cases prev (applyUpdate b prev) now hca
    simp only [updateTask, hd]
    exact ⟨h2 hinv, fun ha hb => h3 ha (h1.symm.trans hb),
      fun ha hb => h4 ha (h1.symm.trans hb), fun hb => h5 (h1.symm.trans hb)⟩
  | some dd =>
    have hca : ({ applyUpdate b prev with
        reminderDate := some (dd - 60 * 60 * 1000) } : Task).completedAt
        = prev.completedAt := by
      simp [applyUpdate, hdirect]
    obtain ⟨h1, h2, h3, h4, h5⟩ := preSave_cases prev
      { applyUpdate b prev with reminderDate := some (dd - 60 * 60 * 1000) } now hca
    simp only [updateTask, hd]
    exact ⟨h2 hinv, fun ha hb => h3 ha (h1.symm.trans hb),
      fun ha hb => h4 ha (h1.symm.trans hb), fun hb => h5 (h1.symm.trans hb)⟩

/-- An update body that marks the task complete. -/
def exCompleteUpdate : UpdateTaskBody :=
  { completed := some true }

/-- C6 witness: completing a previously incomplete task at time 5 stamps
`completedAt = 5`. -/
theorem completedAt_iff_completed_witness :
    ((updateTask (createTask 1 3 0 exPlainBody) exCompleteUpdate 5).completedAt
      = some 5) := by
  have h := completedAt_iff_completed (createTask 1 3 0 exPlainBody)
    exCompleteUpdate 5 rfl (by rfl)
  exact h.2.1 rfl rfl

/-! ## C7 -/

/-- C7: deleting a category that at least one of the owner's tasks
references by name fails with the conflict response and leaves the
category store untouched (the category stays in place); deleting one that
no task references succeeds and removes the category. -/
theorem deleteCategory_guard (uid id : Nat) (cats : List Category)
    (store : List Task) (cat : Category)
    (hfind : findCategory cats id uid = some cat) :
    (countTasksInCategory store uid cat.name > 0 →
      deleteCategory uid id cats store =
        (DeleteCategoryResult.conflict (countTasksInCategory store uid cat.name), cats) ∧
      cat ∈ (deleteCategory uid id cats store).2) ∧
    (countTasksInCategory store uid cat.name = 0 →
      (deleteCategory uid id cats store).1 = DeleteCategoryResult.deleted ∧
      ∀ c ∈ (deleteCategory uid id cats store).2, c.id ≠ id) := by
  have hmem : cat ∈ cats := List.mem_of_find?_eq_some hfind
  constructor
  · intro hpos
    have heq : deleteCategory uid id cats store =
        (DeleteCategoryResult.conflict (countTasksInCategory store uid cat.name), cats) := by
      unfold deleteCategory
      rw [hfind]
      dsimp only
      rw [if_pos hpos]
    rw [heq]
    exact ⟨rfl, hmem⟩
  · intro hzero
    have heq : deleteCategory uid id cats store =
        (DeleteCategoryResult.deleted, cats.filter (fun c => c.id ≠ id)) := by
      unfold deleteCategory
      rw [hfind]
      dsimp only
      rw [if_neg (by omega)]
    rw [heq]
    refine ⟨rfl, ?_⟩
    intro c hc
    exact of_decide_eq_true (List.mem_filter.mp hc).2

/-- A concrete category owned by user 1, named like the example tasks. -/
def exCat : Category :=
  { id := 5, name := "Work", color := "#FFFFFF", icon := "folder",
    description := none, userId := 1, isDefault := false, order := 0 }

/-- A concrete task of user 1 referencing category "Work" by name. -/
def exWorkTask : Task := createTask 1 9 0 exCreateBody

/-- C7 witness: with one referencing task the deletion returns the
conflict response and the category survives; with none it deletes. -/
theorem deleteCategory_guard_witness :
    (deleteCategory 1 5 [exCat] [exWorkTask]).1 = DeleteCategoryResult.conflict 1 ∧
    exCat ∈ (deleteCategory 1 5 [exCat] [exWorkTask]).2 ∧
    (deleteCategory 1 5 [exCat] []).1 = DeleteCategoryResult.deleted ∧
    (∀ c ∈ (deleteCategory 1 5 [exCat] []).2, c.id ≠ 5) := by
  have h1 := (deleteCategory_guard 1 5 [exCat] [exWorkTask] exCat (by decide)).1 (by decide)
  have h2 := (deleteCategory_guard 1 5 [exCat] [] exCat (by decide)).2 (by decide)
  refine ⟨?_, h1.2, h2.1, h2.2⟩
  rw [h1.1]
  decide

/-! ## Reminder-scan lemmas -/

theorem saveTask_null_establishes (t : Task) (store : List Task) :
    ∀ s ∈ saveTask { t with reminderDate := none } store,
      s.id = t.id → s.reminderDate = none := by
  intro s hs hid
  unfold saveTask at hs
  obtain ⟨x, hx, hsx⟩ := List.mem_map.mp hs
  by_cases hxid : x.id = ({ t with reminderDate := none } : Task).id
  · rw [if_pos hxid] at hsx
    rw [← hsx]
  · rw [if_neg hxid] at hsx
    subst hsx
    exact absurd hid hxid

theorem saveTask_null_preserves (i : Nat) (t : Task) (store : List Task)
    (h : ∀ s ∈ store, s.id = i → s.reminderDate = none) :
    ∀ s ∈ saveTask { t with reminderDate := none } store,
      s.id = i → s.reminderDate = none := by
  intro s hs hid
  unfold saveTask at hs
  obtain ⟨x, hx, hsx⟩ := List.mem_map.mp hs
  by_cases hxid : x.id = ({ t with reminderDate := none } : Task).id
  · rw [if_pos hxid] at hsx
    rw [← hsx]
  · rw [if_neg hxid] at hsx
    subst hsx
    exact h x hx hid

theorem processReminders_preserves_null (users : List User) (tr : Bool)
    (dOk : Nat → Bool) (i : Nat) :
    ∀ L store, (∀ s ∈ store, s.id = i → s.reminderDate = none) →
      ∀ s ∈ (processReminders users tr dOk L store).store,
        s.id = i → s.reminderDate = none := by
  intro L
  induction L with
  | nil => intro store h; simpa [processReminders] using h
  | cons t rest ih =>
    intro store h
    simp only [processReminders]
    cases hf : findUser users t.userId with
    | none => exact ih store h
    | some u =>
      by_cases hp : u.preferences.emailNotifications
      · simp only [hp, if_true]
        exact ih _ (saveTask_null_preserves i t store h)
      · simp only [hp, if_false]
        exact ih store h

theorem processReminders_nulls_selected (users : List User) (tr : Bool)
    (dOk : Nat → Bool) (t : Task) (u : User)
    (hu : findUser users t.userId = some u)
    (hp : u.preferences.emailNotifications = true) :
    ∀ L store, t ∈ L →
      ∀ s ∈ (processReminders users tr dOk L store).store,
        s.id = t.id → s.reminderDate = none := by
  intro L
  induction L with
  | nil => intro store h; cases h
  | cons hd rest ih =>
    intro store hmem
    rcases List.mem_cons.mp hmem with heq | htl
    · subst heq
      simp only [processReminders, hu, hp, if_true]
      exact processReminders_preserves_null users tr dOk t.id rest _
        (saveTask_null_establishes t store)
    · simp only [processReminders]
      cases hf : findUser users hd.userId with
      | none => exact ih store htl
      | some u' =>
        by_cases hp' : u'.preferences.emailNotifications
        · simp only [hp', if_true]
          exact ih _ htl
        · simp only [hp', if_false]
          exact ih store htl

theorem processReminders_calls_selected (users : List User) (tr : Bool)
    (dOk : Nat → Bool) (t : Task) (u : User)
    (hu : findUser users t.userId = some u)
    (hp : u.preferences.emailNotifications = true) :
    ∀ L store, t ∈ L →
      (u.id, t.id) ∈ (processReminders users tr dOk L store).calls := by
  intro L
  induction L with
  | nil => intro store h; cases h
  | cons hd rest ih =>
    intro store hmem
    rcases List.mem_cons.mp hmem with heq | htl
    · subst heq
      simp only [processReminders, hu, hp, if_true]
      exact List.mem_cons_self _ _
    · simp only [processReminders]
      cases hf : findUser users hd.userId with
      | none => exact ih store htl
      | some u' =>
        by_cases hp' : u'.preferences.emailNotifications
        · simp only [hp', if_true]
          exact List.mem_cons_of_mem _ (ih _ htl)
        · simp only [hp', if_false]
          exact ih store htl

theorem processReminders_calls_spec (users : List User) (tr : Bool)
    (dOk : Nat → Bool) :
    ∀ L store, ∀ p ∈ (processReminders users tr dOk L store).calls,
      ∃ t' ∈ L, ∃ u', findUser users t'.userId = some u' ∧
        u'.preferences.emailNotifications = true ∧ p = (u'.id, t'.id) := by
  intro L
  induction L with
  | nil => intro store p hp; simp [processReminders] at hp
  | cons hd rest ih =>
    intro store p hpmem
    simp only [processReminders] at hpmem
    cases hf : findUser users hd.userId with
    | none =>
      rw [hf] at hpmem
      obtain ⟨t', ht', rest'⟩ := ih store p hpmem
      exact ⟨t', List.mem_cons_of_mem _ ht', rest'⟩
    | some u' =>
      rw [hf] at hpmem
      by_cases hp' : u'.preferences.emailNotifications
      · simp only [hp', if_true] at hpmem
        rcases List.mem_cons.mp hpmem with heq | htl
        · exact ⟨hd, List.mem_cons_self _ _, u', hf, hp', heq⟩
        · obtain ⟨t', ht', rest'⟩ := ih _ p htl
          exact ⟨t', List.mem_cons_of_mem _ ht', rest'⟩
      · simp only [hp', if_false] at hpmem
        obtain ⟨t', ht', rest'⟩ := ih store p hpmem
        exact ⟨t', List.mem_cons_of_mem _ ht', rest'⟩

theorem processReminders_store_delivery_independent (users : List User)
    (tr : Bool) (d1 d2 : Nat → Bool) :
    ∀ L store, (processReminders users tr d1 L store).store
      = (processReminders users tr d2 L store).store := by
  intro L
  induction L with
  | nil => intro store; rfl
  | cons hd rest ih =>
    intro store
    simp only [processReminders]
    cases hf : findUser users hd.userId with
    | none => exact ih store
    | some u' =>
      by_cases hp' : u'.preferences.emailNotifications
      · simp only [hp', if_true]
        exact ih _
      · simp only [hp', if_false]
        exact ih store

/-! ## C2 -/

/-- C2: a task selected by the Reminder Scan whose owning user has
notifications enabled gets a reminder dispatched, its `reminderDate` is
set to null in the resulting store, and re-running the scan on the
resulting store — at any time — dispatches no reminder for that task. -/
theorem reminder_dispatch_idempotent (users : List User) (tr : Bool)
    (dOk : Nat → Bool) (now : Int) (store : List Task) (t : Task) (u : User)
    (ht : t ∈ tasksToRemind now store)
    (hu : findUser users t.userId = some u)
    (hp : u.preferences.emailNotifications = true) :
    (u.id, t.id) ∈ (checkAndSendReminders users tr dOk now store).calls ∧
    (∀ s ∈ (checkAndSendReminders users tr dOk now store).store,
      s.id = t.id → s.reminderDate = none) ∧
    (∀ now' tr' dOk', ∀ p ∈ (checkAndSendReminders users tr' dOk' now'
        (checkAndSendReminders users tr dOk now store).store).calls,
      p.2 ≠ t.id) := by
  refine ⟨processReminders_calls_selected users tr dOk t u hu hp _ store ht,
    processReminders_nulls_selected users tr dOk t u hu hp _ store ht, ?_⟩
  intro now' tr' dOk' p hpmem hcontra
  obtain ⟨t', ht', u', hu', hp', hpe⟩ :=
    processReminders_calls_spec users tr' dOk' _ _ p hpmem
  have ht'mem : t' ∈ (checkAndSendReminders users tr dOk now store).store :=
    (List.mem_filter.mp ht').1
  obtain ⟨-, r, hr, -, -⟩ :=
    (inReminderWindow_iff now' t').mp (List.mem_filter.mp ht').2
  have hid : t'.id = t.id := by rw [hpe] at hcontra; exact hcontra
  have := processReminders_nulls_selected users tr dOk t u hu hp _ store ht
    t' ht'mem hid
  rw [this] at hr
  cases hr

/-- Preferences with email notifications on/off. -/
def cPrefsOn : Preferences :=
  { theme := "light", emailNotifications := true, pushNotifications := true,
    defaultCategory := "Inbox" }

def cPrefsOff : Preferences :=
  { theme := "light", emailNotifications := false, pushNotifications := true,
    defaultCategory := "Inbox" }

def cUserOn : User :=
  { id := 1, name := "Alice", email := "alice@example.com", preferences := cPrefsOn }

def cUserOff : User :=
  { id := 2, name := "Bob", email := "bob@example.com", preferences := cPrefsOff }

/-- An incomplete task of user 1 with `reminderDate = 60000`, inside the
window of a scan at time 0. -/
def cRemTask : Task :=
  { id := 11, title := "standup", description := none, completed := false,
    priority := "medium", category := "Work", dueDate := some 3660000,
    dueTime := none, reminderDate := some 60000, subtasks := [], tags := [],
    userId := 1, order := 0, completedAt := none, estimatedDuration := none,
    actualDuration := none, notes := none, createdAt := 0 }

/-- Like `cRemTask` but owned by user 2 (whose notifications are off). -/
def cRemTaskOff : Task :=
  { cRemTask with id := 12, userId := 2 }

/-- C2 witness: scanning `[cRemTask]` at time 0 for user 1 dispatches the
`(1, 11)` reminder. -/
theorem reminder_dispatch_idempotent_witness :
    (1, 11) ∈ (checkAndSendReminders [cUserOn] true (fun _ => true) 0 [cRemTask]).calls :=
  (reminder_dispatch_idempotent [cUserOn] true (fun _ => true) 0 [cRemTask]
    cRemTask cUserOn (by decide) (by decide) rfl).1

/-! ## C3 -/

/-- C3: if a user's `preferences.emailNotifications` is false, the
Reminder Scan never makes a dispatch call for that user, and
`sendTaskReminder` itself returns without sending for that user. -/
theorem scan_respects_email_preference (users : List User) (tr tr' : Bool)
    (dOk : Nat → Bool) (d' : Bool) (now : Int) (store : List Task)
    (uid : Nat) (u : User) (t : Task)
    (hu : findUser users uid = some u)
    (hp : u.preferences.emailNotifications = false) :
    (∀ p ∈ (checkAndSendReminders users tr dOk now store).calls, p.1 ≠ u.id) ∧
    sendTaskReminder tr' d' u t = [] := by
  constructor
  · intro p hpmem hcontra
    obtain ⟨t', ht', u', hu', hp', hpe⟩ :=
      processReminders_calls_spec users tr dOk _ _ p hpmem
    have h1 : u'.id = t'.userId := findUser_id hu'
    have h2 : u.id = uid := findUser_id hu
    have h3 : u'.id = u.id := by rw [hpe] at hcontra; exact hcontra
    have h4 : t'.userId = uid := by rw [← h1, h3, h2]
    rw [h4, hu] at hu'
    cases hu'
    rw [hp'] at hp
    cases hp
  · simp [sendTaskReminder, hp]

/-- C3 witness: with user 2's notifications off, a scan over that user's
in-window task makes no dispatch call for user 2, and `sendTaskReminder`
returns nothing for them. -/
theorem scan_respects_email_preference_witness :
    (∀ p ∈ (checkAndSendReminders [cUserOff] true (fun _ => true) 0
      [cRemTaskOff]).calls, p.1 ≠ cUserOff.id) ∧
    sendTaskReminder true true cUserOff cRemTaskOff = [] :=
  scan_respects_email_preference [cUserOff] true true (fun _ => true) true 0
    [cRemTaskOff] 2 cUserOff cRemTaskOff (by decide) rfl

/-! ## C10 -/

/-- C10: a delivery failure inside `sendTaskReminder` is caught there and
only logged; the scan's persisted store does not depend on delivery
outcomes, the failed task's `reminderDate` is still nulled, and no later
scan ever selects that task again (the failed reminder is consumed, never
retried). -/
theorem failed_delivery_consumed (users : List User) (tr : Bool)
    (d1 d2 : Nat → Bool) (now : Int) (store : List Task) (t : Task) (u : User)
    (ht : t ∈ tasksToRemind now store)
    (hu : findUser users t.userId = some u)
    (hp : u.preferences.emailNotifications = true)
    (hfail : d1 t.id = false) :
    sendTaskReminder tr (d1 t.id) u t =
      (if tr then ["Failed to send reminder email: send failed"] else []) ∧
    (checkAndSendReminders users tr d1 now store).store =
      (checkAndSendReminders users tr d2 now store).store ∧
    (∀ s ∈ (checkAndSendReminders users tr d1 now store).store,
      s.id = t.id → s.reminderDate = none) ∧
    (∀ now' t', t' ∈ tasksToRemind now'
        (checkAndSendReminders users tr d1 now store).store → t'.id ≠ t.id) := by
  refine ⟨?_, ?_, processReminders_nulls_selected users tr d1 t u hu hp _ store ht, ?_⟩
  · cases tr <;> simp [sendTaskReminder, sendMail, hp, hfail]
  · exact processReminders_store_delivery_independent users tr d1 d2 _ store
  · intro now' t' ht' hcontra
    have ht'mem : t' ∈ (checkAndSendReminders users tr d1 now store).store :=
      (List.mem_filter.mp ht').1
    obtain ⟨-, r, hr, -, -⟩ :=
      (inReminderWindow_iff now' t').mp (List.mem_filter.mp ht').2
    have := processReminders_nulls_selected users tr d1 t u hu hp _ store ht
      t' ht'mem hcontra
    rw [this] at hr
    cases hr

/-- C10 witness: with delivery failing for task 11, the scan still nulls
its reminder, as shown by the store coinciding with the all-success run. -/
theorem failed_delivery_consumed_witness :
    (checkAndSendReminders [cUserOn] true (fun _ => false) 0 [cRemTask]).store =
      (checkAndSendReminders [cUserOn] true (fun _ => true) 0 [cRemTask]).store :=
  (failed_delivery_consumed [cUserOn] true (fun _ => false) (fun _ => true) 0
    [cRemTask] cRemTask cUserOn (by decide) (by decide) rfl rfl).2.1

/-! ## C4 -/

theorem dailyLoop_run (fault : Nat → Bool) (store : List Task) (tomorrow : Int) :
    ∀ l : List User,
      (dailyLoop fault store tomorrow l).processed =
        (l.takeWhile (fun u => !fault u.id)).map User.id ∧
      (dailyLoop fault store tomorrow l).errorLogged =
        l.any (fun u => fault u.id) := by
  intro l
  induction l with
  | nil => exact ⟨rfl, rfl⟩
  | cons u rest ih =>
    cases hf : fault u.id with
    | true => simp [dailyLoop, hf, List.takeWhile]
    | false =>
      simp only [dailyLoop, hf, Bool.false_eq_true, if_false, List.takeWhile,
        Bool.not_false, List.map_cons, List.any_cons, Bool.false_or]
      exact ⟨by rw [ih.1], ih.2⟩

theorem weeklyLoop_run (fault : Nat → Bool) (store : List Task) (oneWeekAgo : Int) :
    ∀ l : List User,
      (weeklyLoop fault store oneWeekAgo l).summaries.map Prod.fst =
        (l.takeWhile (fun u => !fault u.id)).map User.id ∧
      (weeklyLoop fault store oneWeekAgo l).errorLogged =
        l.any (fun u => fault u.id) := by
  intro l
  induction l with
  | nil => exact ⟨rfl, rfl⟩
  | cons u rest ih =>
    cases hf : fault u.id with
    | true => simp [weeklyLoop, hf, List.takeWhile]
    | false =>
      simp only [weeklyLoop, hf, Bool.false_eq_true, if_false, List.takeWhile,
        Bool.not_false, List.map_cons, List.any_cons, Bool.false_or]
      exact ⟨by rw [ih.1], ih.2⟩

/-- A second user with notifications enabled, processed after `cUserOn`. -/
def cUserOn2 : User :=
  { id := 2, name := "Bob", email := "bob@example.com", preferences := cPrefsOn }

/-- A fault hitting exactly user 1's loop iteration. -/
def cFault1 : Nat → Bool := fun uid => uid == 1

/-- An incomplete task of user 2 due within the daily window. -/
def cDueTask2 : Task :=
  { cRemTask with id := 13, userId := 2, dueDate := some 1000, reminderDate := none }

/-- C4 counterexample: user 2 has notifications enabled, does not fault,
and has a due-soon task, yet after user 1's iteration throws, neither
batch job processes user 2 — no due-soon notification and no weekly
summary goes out, refuting "every remaining user is still processed". -/
theorem batch_fault_not_isolated_cex :
    usersWithNotifications [cUserOn, cUserOn2] = [cUserOn, cUserOn2] ∧
    cFault1 cUserOn.id = true ∧
    cFault1 cUserOn2.id = false ∧
    dueSoonTasks [cDueTask2] cUserOn2.id 2000 = [cDueTask2] ∧
    (sendDailySummary cFault1 [cUserOn, cUserOn2] [cDueTask2] 2000).processed = [] ∧
    (sendDailySummary cFault1 [cUserOn, cUserOn2] [cDueTask2] 2000).notifications = [] ∧
    (sendWeeklySummaries cFault1 [cUserOn, cUserOn2] [cDueTask2] 0).summaries = [] := by
  refine ⟨by decide, by decide, by decide, by decide, by decide, by decide, by decide⟩

/-- C4 (amended): an exception inside one user's iteration of the daily
due-soon job or the weekly summary job is caught by the job-level handler,
which logs it and ends that run; the users before the first faulting user
are processed, the faulting user and every user after it are not. -/
theorem batch_fault_aborts_remaining (fault : Nat → Bool) (users : List User)
    (store : List Task) (tomorrow oneWeekAgo : Int) :
    (sendDailySummary fault users store tomorrow).processed =
      ((usersWithNotifications users).takeWhile (fun u => !fault u.id)).map User.id ∧
    (sendDailySummary fault users store tomorrow).errorLogged =
      (usersWithNotifications users).any (fun u => fault u.id) ∧
    (sendWeeklySummaries fault users store oneWeekAgo).summaries.map Prod.fst =
      ((usersWithNotifications users).takeWhile (fun u => !fault u.id)).map User.id ∧
    (sendWeeklySummaries fault users store oneWeekAgo).errorLogged =
      (usersWithNotifications users).any (fun u => fault u.id) := by
  obtain ⟨hd1, hd2⟩ := dailyLoop_run fault store tomorrow (usersWithNotifications users)
  obtain ⟨hw1, hw2⟩ := weeklyLoop_run fault store oneWeekAgo (usersWithNotifications users)
  exact ⟨hd1, hd2, hw1, hw2⟩

/-! ## C8 -/

theorem generateWeeklyStats_streak (store : List Task) (uid : Nat) (lo : Int) :
    (generateWeeklyStats store uid lo).streak =
      (((completedSince store uid lo).filterMap Task.completedAt).map dayKey).dedup.length :=
  rfl

/-- Modelled from the spec: the set of distinct calendar dates (UTC day of
`completedAt`) on which the user completed at least one task inside the
window `[lo, hi]`. -/
def distinctCompletionDays (store : List Task) (uid : Nat) (lo hi : Int) : Finset Int :=
  (((store.filter (fun t => t.userId == uid && t.completed &&
      match t.completedAt with
      | some c => decide (lo ≤ c) && decide (c ≤ hi)
      | none => false)).filterMap Task.completedAt).map dayKey).toFinset

/-- C8: over a store whose completion stamps do not lie in the future, the
weekly summary's `streak` equals the number of distinct calendar dates
with at least one completed task in the trailing 7-day window, regardless
of same-day multiplicity. -/
theorem weekly_streak_distinct_days (store : List Task) (uid : Nat) (now : Int)
    (hpast : ∀ t ∈ store, ∀ c, t.completedAt = some c → c ≤ now) :
    (generateWeeklyStats store uid (now - 7 * 86400000)).streak =
      (distinctCompletionDays store uid (now - 7 * 86400000) now).card := by
  have hfeq : completedSince store uid (now - 7 * 86400000) =
      store.filter (fun t => t.userId == uid && t.completed &&
        match t.completedAt with
        | some c => decide ((now - 7 * 86400000) ≤ c) && decide (c ≤ now)
        | none => false) := by
    unfold completedSince
    apply List.filter_congr
    intro t htmem
    cases hca : t.completedAt with
    | none => simp
    | some c =>
      have hc := hpast t htmem c hca
      simp [hca, hc]
  rw [generateWeeklyStats_streak, hfeq]
  unfold distinctCompletionDays
  rw [List.card_toFinset]

/-- A completed task of user 1 with the given id and completion stamp. -/
def cDone (i : Nat) (c : Int) : Task :=
  { cRemTask with
    id := i, completed := true, completedAt := some c,
    reminderDate := none }

/-- Four completions spread over three distinct UTC days of the week
ending at `now = 604800000` (so the window starts at 0). -/
def cWeekStore : List Task :=
  [cDone 21 1000, cDone 22 2000, cDone 23 86405000, cDone 24 172807000]

/-- C8 witness: four completions on three distinct days give streak 3. -/
theorem weekly_streak_distinct_days_witness :
    (generateWeeklyStats cWeekStore 1 (604800000 - 7 * 86400000)).streak =
      (distinctCompletionDays cWeekStore 1 (604800000 - 7 * 86400000) 604800000).card ∧
    (generateWeeklyStats cWeekStore 1 (604800000 - 7 * 86400000)).streak = 3 := by
  refine ⟨weekly_streak_distinct_days cWeekStore 1 604800000 (by decide), by decide⟩

/-! ## C9 -/

/-- At most one default category per user, read over document values: any
two defaults of the user in the store are the same document. -/
def atMostOneDefault (uid : Nat) (cats : List Category) : Prop :=
  ∀ c1 ∈ cats, ∀ c2 ∈ cats, c1.userId = uid → c2.userId = uid →
    c1.isDefault = true → c2.isDefault = true → c1 = c2

theorem mem_upsertCategory {a c : Category} {cats : List Category}
    (h : a ∈ upsertCategory c cats) : a = c ∨ (a ∈ cats ∧ a.id ≠ c.id) := by
  unfold upsertCategory at h
  by_cases hany : cats.any (fun x => x.id == c.id) = true
  · rw [if_pos hany] at h
    obtain ⟨x, hx, hax⟩ := List.mem_map.mp h
    by_cases hxid : x.id = c.id
    · rw [if_pos hxid] at hax
      exact Or.inl hax.symm
    · rw [if_neg hxid] at hax
      subst hax
      exact Or.inr ⟨hx, hxid⟩
  · rw [if_neg hany] at h
    rcases List.mem_append.mp h with h1 | h2
    · refine Or.inr ⟨h1, fun heq => hany ?_⟩
      exact List.any_eq_true.mpr ⟨a, h1, by simp [heq]⟩
    · exact Or.inl (List.mem_singleton.mp h2)

theorem mem_clearOtherDefaults_default {a : Category} {uid id : Nat}
    {cats : List Category} (h : a ∈ clearOtherDefaults uid id cats)
    (hd : a.isDefault = true) : a ∈ cats ∧ (a.userId = uid → a.id = id) := by
  unfold clearOtherDefaults at h
  obtain ⟨x, hx, hax⟩ := List.mem_map.mp h
  by_cases hcnd : x.userId = uid ∧ x.id ≠ id
  · rw [if_pos hcnd] at hax
    rw [← hax] at hd
    simp at hd
  · rw [if_neg hcnd] at hax
    subst hax
    refine ⟨hx, fun hau => ?_⟩
    by_contra hne
    exact hcnd ⟨hau, hne⟩

theorem clearOtherDefaults_ids (uid id : Nat) (cats : List Category) :
    (clearOtherDefaults uid id cats).map Category.id = cats.map Category.id := by
  unfold clearOtherDefaults
  rw [List.map_map]
  apply List.map_congr_left
  intro x hx
  simp only [Function.comp_apply]
  by_cases hcnd : x.userId = uid ∧ x.id ≠ id
  · rw [if_pos hcnd]
  · rw [if_neg hcnd]

theorem upsertCategory_ids_nodup {c : Category} {cats : List Category}
    (h : (cats.map Category.id).Nodup) :
    ((upsertCategory c cats).map Category.id).Nodup := by
  unfold upsertCategory
  by_cases hany : cats.any (fun x => x.id == c.id) = true
  · rw [if_pos hany, List.map_map]
    have heq : cats.map (Category.id ∘ fun x => if x.id = c.id then c else x)
        = cats.map Category.id := by
      apply List.map_congr_left
      intro x hx
      simp only [Function.comp_apply]
      by_cases hxid : x.id = c.id
      · rw [if_pos hxid, hxid]
      · rw [if_neg hxid]
    rw [heq]
    exact h
  · rw [if_neg hany, List.map_append]
    rw [List.nodup_append]
    refine ⟨h, List.nodup_singleton _, ?_⟩
    intro a ha hamem
    rw [List.map_singleton, List.mem_singleton] at hamem
    subst hamem
    obtain ⟨x, hx, hxid⟩ := List.mem_map.mp ha
    exact hany (List.any_eq_true.mpr ⟨x, hx, by simp [hxid]⟩)

theorem saveCategory_ids_nodup {c : Category} {cats : List Category}
    (m : Bool) (h : (cats.map Category.id).Nodup) :
    ((saveCategory m c cats).map Category.id).Nodup := by
  unfold saveCategory
  split
  · apply upsertCategory_ids_nodup
    rw [clearOtherDefaults_ids]
    exact h
  · exact upsertCategory_ids_nodup h

theorem length_filter_le_one_of_forall_eq {l : List Category} {p : Category → Bool}
    (hnodup : (l.map Category.id).Nodup)
    (h : ∀ a ∈ l, ∀ b ∈ l, p a = true → p b = true → a = b) :
    (l.filter p).length ≤ 1 := by
  rcases hfil : l.filter p with - | ⟨x, - | ⟨y, rest⟩⟩
  · simp
  · simp
  · exfalso
    have hids : ((l.filter p).map Category.id).Nodup :=
      hnodup.sublist ((List.filter_sublist l).map Category.id)
    rw [hfil, List.map_cons] at hids
    have hxmem : x ∈ l.filter p := by
      rw [hfil]; exact List.mem_cons_self _ _
    have hymem : y ∈ l.filter p := by
      rw [hfil]; exact List.mem_cons_of_mem _ (List.mem_cons_self _ _)
    have hx := List.mem_filter.mp hxmem
    have hy := List.mem_filter.mp hymem
    have hxy : x = y := h x hx.1 y hy.1 hx.2 hy.2
    have hnot : x.id ∉ (y :: rest).map Category.id := (List.nodup_cons.mp hids).1
    exact hnot (by rw [hxy]; exact List.mem_map_of_mem _ (List.mem_cons_self _ _))

/-- C9 (amended): saving a category with `isDefault` newly set to true
clears the flag on every other category of the same user; and the
per-user at-most-one-default invariant is preserved by every save that
keeps the document with its owner. `hmod` spells the latter out: when the
`isDefault` path is unmodified, the stored document with this id carries
the same flag (that much is Mongoose's `isModified` semantics) *and the
same owner* — an extra owner-stability assumption, true of the documented
update API but escapable through the handler's key loop, which copies an
unvalidated `userId` body key too; see the counterexample for the save
that violates the unamended claim that way. -/
theorem category_single_default (c : Category) (cats : List Category)
    (modifiedIsDefault : Bool)
    (hnodup : (cats.map Category.id).Nodup)
    (hmod : modifiedIsDefault = false →
      (∃ p ∈ cats, p.id = c.id ∧ p.isDefault = c.isDefault ∧ p.userId = c.userId) ∨
        c.isDefault = false)
    (hinv : ∀ uid, atMostOneDefault uid cats) :
    (∀ uid, atMostOneDefault uid (saveCategory modifiedIsDefault c cats)) ∧
    (c.isDefault = true → modifiedIsDefault = true →
      ∀ c' ∈ saveCategory modifiedIsDefault c cats,
        c'.userId = c.userId → c'.id ≠ c.id → c'.isDefault = false) ∧
    (∀ uid, ((saveCategory modifiedIsDefault c cats).filter
      (fun x => x.userId == uid && x.isDefault)).length ≤ 1) := by
  have hsave_pos : c.isDefault = true → modifiedIsDefault = true →
      saveCategory modifiedIsDefault c cats =
        upsertCategory c (clearOtherDefaults c.userId c.id cats) := by
    intro h1 h2
    unfold saveCategory
    rw [if_pos ⟨h1, h2⟩]
  have hsave_neg : ¬(c.isDefault = true ∧ modifiedIsDefault = true) →
      saveCategory modifiedIsDefault c cats = upsertCategory c cats := by
    intro h
    unfold saveCategory
    rw [if_neg h]
  have part1 : ∀ uid, atMostOneDefault uid (saveCategory modifiedIsDefault c cats) := by
    intro uid c1 h1 c2 h2 hu1 hu2 hd1 hd2
    by_cases hcm : c.isDefault = true ∧ modifiedIsDefault = true
    · rw [hsave_pos hcm.1 hcm.2] at h1 h2
      rcases mem_upsertCategory h1 with rfl | ⟨hm1, hne1⟩
      · rcases mem_upsertCategory h2 with rfl | ⟨hm2, hne2⟩
        · rfl
        · obtain ⟨-, himp2⟩ := mem_clearOtherDefaults_default hm2 hd2
          exact absurd (himp2 (hu2.trans hu1.symm)) hne2
      · obtain ⟨hc1, himp1⟩ := mem_clearOtherDefaults_default hm1 hd1
        rcases mem_upsertCategory h2 with rfl | ⟨hm2, hne2⟩
        · exact absurd (himp1 (hu1.trans hu2.symm)) hne1
        · obtain ⟨hc2, -⟩ := mem_clearOtherDefaults_default hm2 hd2
          exact hinv uid c1 hc1 c2 hc2 hu1 hu2 hd1 hd2
    · rw [hsave_neg hcm] at h1 h2
      have hm0 : c.isDefault = true → modifiedIsDefault = false := by
        intro hcd
        cases hmb : modifiedIsDefault
        · rfl
        · exact absurd ⟨hcd, hmb⟩ hcm
      rcases mem_upsertCategory h1 with rfl | ⟨hm1, hne1⟩
      · rcases mem_upsertCategory h2 with rfl | ⟨hm2, hne2⟩
        · rfl
        · exfalso
          rcases hmod (hm0 hd1) with ⟨p, hp, hpid, hpdef, hpuid⟩ | hfalse
          · have heq : p = c2 := hinv uid p hp c2 hm2 (hpuid.trans hu1)
              hu2 (hpdef.trans hd1) hd2
            exact hne2 (heq ▸ hpid)
          · rw [hfalse] at hd1
            cases hd1
      · rcases mem_upsertCategory h2 with rfl | ⟨hm2, hne2⟩
        · exfalso
          rcases hmod (hm0 hd2) with ⟨p, hp, hpid, hpdef, hpuid⟩ | hfalse
          · have heq : p = c1 := hinv uid p hp c1 hm1 (hpuid.trans hu2)
              hu1 (hpdef.trans hd2) hd1
            exact hne1 (heq ▸ hpid)
          · rw [hfalse] at hd2
            cases hd2
        · exact hinv uid c1 hm1 c2 hm2 hu1 hu2 hd1 hd2
  have part2 : c.isDefault = true → modifiedIsDefault = true →
      ∀ c' ∈ saveCategory modifiedIsDefault c cats,
        c'.userId = c.userId → c'.id ≠ c.id → c'.isDefault = false := by
    intro hcd hm c' hc' huidc hidc
    rw [hsave_pos hcd hm] at hc'
    rcases mem_upsertCategory hc' with rfl | ⟨hmem, hne⟩
    · exact absurd rfl hidc
    · cases hb : c'.isDefault
      · rfl
      · obtain ⟨-, himp⟩ := mem_clearOtherDefaults_default hmem hb
        exact absurd (himp huidc) hne
  refine ⟨part1, part2, ?_⟩
  intro uid
  apply length_filter_le_one_of_forall_eq (saveCategory_ids_nodup modifiedIsDefault hnodup)
  intro a ha b hb hpa hpb
  rw [Bool.and_eq_true] at hpa hpb
  exact part1 uid a ha b hb (by simpa using hpa.1) (by simpa using hpb.1) hpa.2 hpb.2

/-- User 1's initially default category. -/
def cCatA : Category :=
  { id := 5, name := "Inbox", color := "#3B82F6", icon := "folder",
    description := none, userId := 1, isDefault := true, order := 0 }

/-- User 1's second, non-default category. -/
def cCatB : Category :=
  { id := 6, name := "Work", color := "#10B981", icon := "folder",
    description := none, userId := 1, isDefault := false, order := 1 }

/-- `cCatB` with `isDefault` newly set to true (a modified save). -/
def cCatB2 : Category :=
  { cCatB with isDefault := true }

/-- User 2's default category, before being reassigned. -/
def cCatC : Category :=
  { id := 7, name := "Home", color := "#EF4444", icon := "folder",
    description := none, userId := 2, isDefault := true, order := 0 }

/-- `cCatC` after a PUT body reassigns it to user 1: the handler's key
loop copies the unvalidated `userId` key, while the `isDefault` path is
left untouched — so the save runs with `isModified('isDefault')` false. -/
def cCatC1 : Category :=
  { cCatC with userId := 1 }

/-- C9 counterexample: before the save each user has exactly one default
(`cCatA` for user 1, `cCatC` for user 2); saving `cCatC1` — owner
reassigned to user 1, `isDefault` value unchanged, hence an unmodified
`isDefault` path — skips the clearing hook and leaves user 1 with two
default categories, refuting "at most one default per user after any
category save". -/
theorem category_userId_reassign_cex :
    (([cCatA, cCatC].filter (fun x => x.userId == 1 && x.isDefault)).length = 1) ∧
    (([cCatA, cCatC].filter (fun x => x.userId == 2 && x.isDefault)).length = 1) ∧
    cCatC1.isDefault = cCatC.isDefault ∧
    (((saveCategory false cCatC1 [cCatA, cCatC]).filter
      (fun x => x.userId == 1 && x.isDefault)).length = 2) := by
  refine ⟨by decide, by decide, rfl, by decide⟩

/-- C9 witness: after saving `cCatB2` (newly default) over the two-category
store, user 1 has at most one default category. -/
theorem category_single_default_witness :
    ((saveCategory true cCatB2 [cCatA, cCatB]).filter
      (fun x => x.userId == 1 && x.isDefault)).length ≤ 1 := by
  have hinv : ∀ uid, atMostOneDefault uid [cCatA, cCatB] := by
    intro uid c1 h1 c2 h2 hu1 hu2 hd1 hd2
    simp only [List.mem_cons, List.not_mem_nil, or_false] at h1 h2
    rcases h1 with rfl | rfl <;> rcases h2 with rfl | rfl
    · rfl
    · simp [cCatB] at hd2
    · simp [cCatB] at hd1
    · rfl
  exact (category_single_default cCatB2 [cCatA, cCatB] true (by decide)
    (fun h => Bool.noConfusion h) hinv).2.2 1

end Todo
